import Mathlib

/-
  Verification development for the FileFlow peer-to-peer file transfer
  application (src/src/App.tsx).

  The embedding below translates the receive-side transfer state machine
  (handleReceiveMessage), the progress computation, the chunking loop of
  sendFileInChunks, the rendezvous-record snapshot handlers of both the
  initiator (handleFileChange) and the responder (handleReceiveSubmit),
  the cancellation and cleanup handlers, and the share-code generation.

  Conventions of the embedding:
  * Bytes are Nat; a binary message payload (JS ArrayBuffer) is a List Nat.
  * A text message carries the result of JSON.parse applied to its string
    payload: some json when parsing succeeds, none when JSON.parse throws
    (the source catches that exception at App.tsx 326).
  * JS numbers are modelled by JsNum: a finite rational, the two infinities
    or NaN; Math.round, division and multiplication follow the JS rules on
    these values (negative zero is not distinguished from zero).
  * React component state (useState values) is an AppState record; a
    closure created during a render reads the state values of that render,
    and a set-state call only affects later renders, never the bindings an
    already-installed callback closed over.
  * Firestore is modelled by the trace of operations issued against it
    (StoreOp) and, for the snapshot subscriptions, by the list of record
    snapshots delivered to the installed handler.
-/

/-- JSON values, the possible results of JSON.parse. JSON numbers are
modelled as rationals; object field lists coming out of JSON.parse have
unique keys (a duplicate key keeps only one binding). -/
inductive Json where
  | null : Json
  | bool (b : Bool) : Json
  | num (q : ℚ) : Json
  | str (s : String) : Json
  | arr (items : List Json) : Json
  | obj (fields : List (String × Json)) : Json

/-- JS property access metadata.size on a parsed JSON value: a field lookup
on an object, undefined (none) on every other shape of value. -/
def Json.getField : Json → String → Option Json
  | .obj fields, key => fields.lookup key
  | _, _ => none

/-- JS numbers: finite value, infinities, NaN. -/
inductive JsNum where
  | fin (q : ℚ) : JsNum
  | posInf : JsNum
  | negInf : JsNum
  | nan : JsNum
deriving DecidableEq, Repr

/-- JS division. For finite operands: ordinary division when the divisor is
nonzero; 0/0 is NaN and x/0 is a signed infinity otherwise. NaN propagates;
an infinity divided by an infinity is NaN. -/
def jsDiv : JsNum → JsNum → JsNum
  | .nan, _ => .nan
  | _, .nan => .nan
  | .fin a, .fin b =>
      if b = 0 then (if a = 0 then .nan else if 0 < a then .posInf else .negInf)
      else .fin (a / b)
  | .posInf, .fin b => if 0 ≤ b then .posInf else .negInf
  | .negInf, .fin b => if 0 ≤ b then .negInf else .posInf
  | .fin _, .posInf => .fin 0
  | .fin _, .negInf => .fin 0
  | .posInf, _ => .nan
  | .negInf, _ => .nan

/-- JS multiplication. NaN propagates; an infinity times zero is NaN,
times a nonzero finite value a signed infinity. -/
def jsMul : JsNum → JsNum → JsNum
  | .nan, _ => .nan
  | _, .nan => .nan
  | .fin a, .fin b => .fin (a * b)
  | .posInf, .posInf => .posInf
  | .posInf, .negInf => .negInf
  | .negInf, .posInf => .negInf
  | .negInf, .negInf => .posInf
  | .posInf, .fin b => if b = 0 then .nan else if 0 < b then .posInf else .negInf
  | .fin a, .posInf => if a = 0 then .nan else if 0 < a then .posInf else .negInf
  | .negInf, .fin b => if b = 0 then .nan else if 0 < b then .negInf else .posInf
  | .fin a, .negInf => if a = 0 then .nan else if 0 < a then .negInf else .posInf

/-- JS Math.round: round half toward positive infinity on finite values,
identity on NaN and the infinities. -/
def jsRound : JsNum → JsNum
  | .fin q => .fin ((⌊q + 1/2⌋ : ℤ) : ℚ)
  | x => x

/-- The progress computation at App.tsx 336:
Math.round((receivedFileSize / size) * 100), on JS number semantics. -/
def progress (receivedBytes totalBytes : ℚ) : JsNum :=
  jsRound (jsMul (jsDiv (.fin receivedBytes) (.fin totalBytes)) (.fin 100))

/-- Receiver-side mutable refs of the component (App.tsx 75-77):
the chunk buffer, the running byte total, and the recorded metadata.
fileMetadata holds whatever JSON.parse returned, not a checked record. -/
structure ReceiverState where
  receivedChunks : List (List Nat)
  receivedFileSize : Nat
  fileMetadata : Option Json

/-- Fresh receiver refs: empty buffer, zero bytes, no metadata. -/
def initialReceiverState : ReceiverState := ⟨[], 0, none⟩

/-- A message arriving on the data channel, as the receive handler sees it:
a text payload is represented by its JSON.parse result (none when parsing
throws), a binary payload by its bytes. -/
inductive WireMsg where
  | text (parsed : Option Json) : WireMsg
  | binary (bytes : List Nat) : WireMsg

/-- Outcome of one handleReceiveMessage invocation: either a normal return
with the updated refs and, when the completion branch fired, the reassembled
blob handed to the download step; or a thrown TypeError (the state recorded
is the state at the moment of the throw). -/
inductive RecvOutcome where
  | ok (st : ReceiverState) (delivered : Option (List Nat)) : RecvOutcome
  | typeError (st : ReceiverState) : RecvOutcome

/-- JS strict equality receivedFileSize === metadata.size: true exactly when
the size field is a JSON number equal to the byte count; strict equality
between a number and undefined or a non-number value is false. -/
def jsStrictEqSize (n : Nat) (v : Option Json) : Bool :=
  match v with
  | some (.num q) => q == (n : ℚ)
  | _ => false

/-- handleReceiveMessage (App.tsx 316-361). A string payload is parsed:
on success the parsed value is stored as metadata and the buffer and byte
counter are reset; on a parse exception the handler falls through and,
the payload not being an ArrayBuffer, does nothing. A binary payload is
pushed onto the buffer and counted, then the progress line dereferences
fileMetadata.current!.size, which throws a TypeError when no metadata is
recorded; otherwise, when the byte total strictly equals the size field,
the buffer is reassembled (Blob concatenation in receipt order) and handed
to the download step. The status strings set along the way, and the
3-second resetState timer of the completion branch, are presentation and
are not part of the returned state. -/
def handleReceiveMessage (st : ReceiverState) (msg : WireMsg) : RecvOutcome :=
  match msg with
  | .text (some metadata) => .ok ⟨[], 0, some metadata⟩ none
  | .text none => .ok st none
  | .binary bytes =>
    let st1 : ReceiverState :=
      ⟨st.receivedChunks ++ [bytes], st.receivedFileSize + bytes.length, st.fileMetadata⟩
    match st.fileMetadata with
    | none => .typeError st1
    | some m =>
      if jsStrictEqSize st1.receivedFileSize (m.getField "size") then
        .ok st1 (some st1.receivedChunks.flatten)
      else
        .ok st1 none

/-- The chunking loop of sendFileInChunks (App.tsx 283-313), parameterised
by the chunk size. readSlice(o) reads file.slice(o, o + C); onload sends
the slice, advances offset by its byte length, and loops while the new
offset is below the file size, otherwise it has sent the last slice. The
fuel argument bounds the recursion; file.length + 1 steps always suffice
when C is positive, and the very first slice is sent even for an empty
file (an empty ArrayBuffer is truthy). -/
def chunkFileGo (file : List Nat) (C : Nat) : Nat → Nat → List (List Nat)
  | 0, _ => []
  | fuel + 1, o =>
    let slice := (file.drop o).take C
    if o + slice.length < file.length then
      slice :: chunkFileGo file C fuel (o + slice.length)
    else
      [slice]

/-- The full chunk sequence the sender emits for a file at chunk size C. -/
def chunkFile (file : List Nat) (C : Nat) : List (List Nat) :=
  chunkFileGo file C (file.length + 1) 0

/-- The fixed chunk size of the source, 64 KiB (App.tsx 276). -/
def CHUNK_SIZE : Nat := 64 * 1024

/-- The chunk sequence sendFileInChunks emits: the source loop at its fixed
64 KiB chunk size. -/
def sendFileInChunks (file : List Nat) : List (List Nat) :=
  chunkFile file CHUNK_SIZE

/-- React useState values of the App component that the session logic
reads: mode, status and shareCode (App.tsx 66-69). -/
structure AppState where
  mode : String
  status : String
  shareCode : String
deriving DecidableEq, Repr

/-- State of the component before any session: idle, waiting, no code. -/
def initialAppState : AppState :=
  { mode := "idle", status := "Waiting for connection...", shareCode := "" }

/-- resetState (App.tsx 123-135): closes the peer connection and the data
channel, clears the receive refs, and returns every useState value to its
idle default. -/
def resetState : AppState :=
  { mode := "idle", status := "Waiting for connection...", shareCode := "" }

/-- handleCancel (App.tsx 137-143), reading the shareCode of the render it
belongs to: when the code is non-empty (JS string truthiness) it issues
deleteDoc on the rendezvous record of that code, then resets the state.
The first component is the key deleted, none when no delete is issued. -/
def handleCancel (shareCode : String) : Option String × AppState :=
  (if shareCode = "" then none else some shareCode, resetState)

/-- handleReceiveSubmit (App.tsx 215-219) state effect: store the entered
code, switch to receiving mode, update the status. The snapshot handler it
installs is responderOnSnapshot below. -/
def handleReceiveSubmit (s : AppState) (code : String) : AppState :=
  { s with shareCode := code, mode := "receiving",
           status := "Connecting with code: " ++ code ++ "..." }

/-- handleFileChange (App.tsx 149-209) as run in render state s: it stores
the generated code via setShareCode (visible to later renders) and installs
dataChannel.onopen pointing at the sendFileInChunks closure of the current
render. The first component is the shareCode value that closure captured:
the value of the render in which handleFileChange ran, which setShareCode
does not mutate. -/
def handleFileChange (s : AppState) (newShareCode : String) : String × AppState :=
  (s.shareCode,
   { s with mode := "sending", shareCode := newShareCode,
            status := "Share code generated. Waiting for receiver..." })

/-- The deleteDoc key issued by the completion timer of sendFileInChunks
(App.tsx 297-303): the timer runs if (shareCode) deleteDoc(...) over the
shareCode binding captured when the closure was created; none when that
captured value is the empty string (JS falsy), so no delete is issued. -/
def sendCompletionDeleteKey (capturedShareCode : String) : Option String :=
  if capturedShareCode = "" then none else some capturedShareCode

/-- Operations issued against the rendezvous record store. -/
inductive StoreOp where
  | setRecord (key : String) : StoreOp
  | getRecord (key : String) : StoreOp
  | updateRecord (key : String) : StoreOp
  | deleteRecord (key : String) : StoreOp
  | subscribe (key : String) : StoreOp
deriving DecidableEq, Repr

/-- The record-store operations handleFileChange performs for a freshly
generated code, in order (App.tsx 170-208): setDoc of the offer record,
then the onSnapshot subscription. No getDoc existence check precedes the
setDoc; candidate updateDoc calls only happen later, event-driven. -/
def handleFileChangeStoreOps (code : String) : List StoreOp :=
  [.setRecord code, .subscribe code]

/-- One snapshot of the rendezvous record as delivered to a subscription
handler. A candidate field that is absent from the document behaves like
the empty list (the source guards with if (data?.field), and an empty
array is truthy, so both cases apply every candidate of the list). -/
structure RecordSnapshot where
  offer : Option String
  answer : Option String
  offerCandidates : List String
  answerCandidates : List String
deriving DecidableEq, Repr

/-- The peer-connection state the snapshot handlers touch: the remote and
local descriptions, the number of setRemoteDescription invocations, the
sequence of addIceCandidate invocations in order, and the number of record
updates writing the answer (responder only). -/
structure PCState where
  remoteDescription : Option String
  localDescription : Option String
  applyCount : Nat
  appliedCandidates : List String
  answerUpdates : Nat
deriving DecidableEq, Repr

/-- A fresh peer connection: no descriptions, nothing applied. -/
def initialPCState : PCState := ⟨none, none, 0, [], 0⟩

/-- The transport generating an answer description for an offer, modelled
as a deterministic function of the offer (the description value is opaque
to the exchange logic). -/
def createAnswer (offer : String) : String := "answer/" ++ offer

/-- The initiator snapshot handler (App.tsx 194-208): when no remote
description is set and the snapshot carries an answer, apply it as remote;
then, unconditionally, pass every entry of answerCandidates to
addIceCandidate. -/
def initiatorOnSnapshot (pc : PCState) (data : RecordSnapshot) : PCState :=
  let pc1 :=
    if pc.remoteDescription.isNone && data.answer.isSome then
      { pc with remoteDescription := data.answer, applyCount := pc.applyCount + 1 }
    else pc
  { pc1 with appliedCandidates := pc1.appliedCandidates ++ data.answerCandidates }

/-- The responder snapshot handler (App.tsx 246-271): when the snapshot
carries an offer and no remote description is set, apply the offer as
remote, create and apply a local answer, and update the record with the
answer; then, unconditionally, pass every entry of offerCandidates to
addIceCandidate. -/
def responderOnSnapshot (pc : PCState) (data : RecordSnapshot) : PCState :=
  let pc1 :=
    if data.offer.isSome && pc.remoteDescription.isNone then
      { pc with remoteDescription := data.offer,
                localDescription := some (createAnswer (data.offer.getD "")),
                applyCount := pc.applyCount + 1,
                answerUpdates := pc.answerUpdates + 1 }
    else pc
  { pc1 with appliedCandidates := pc1.appliedCandidates ++ data.offerCandidates }

/-- JS String.prototype.substring(start, end): both indices are clamped to
the string length and swapped when out of order; the characters of the
half-open range are returned. -/
def jsSubstring (s : String) (start stop : Nat) : String :=
  let n := s.length
  let a := if start ≤ n then start else n
  let b := if stop ≤ n then stop else n
  let lo := if a ≤ b then a else b
  let hi := if a ≤ b then b else a
  String.mk (((s.toList).drop lo).take (hi - lo))

/-- Minimal number of decimal digits of a terminating decimal expansion of
q, searched up to 20 digits; none when q has no terminating expansion that
short. A rational times 10 to the k is an integer exactly when its reduced
denominator divides 10 to the k. -/
def findTerminatingLen (q : ℚ) : Option Nat :=
  (List.range 21).find? (fun k => decide (0 < k) && decide (q.den ∣ 10 ^ k))

/-- Left-pad a digit string with zeros to length k. -/
def padLeftZeros (s : String) (k : Nat) : String :=
  String.mk (List.replicate (k - s.length) '0') ++ s

/-- JS Number.prototype.toString on the outcomes of Math.random() that the
model covers: 0 prints as the single character 0, and a value in (0, 1)
with a short terminating decimal expansion prints as 0. followed by the
digits of its minimal terminating expansion, which is the shortest decimal
string that round-trips (for example 0.5 prints as 0.5). Values outside
this fragment are not modelled. The digit block of a value with expansion
length k is its numerator times 10 to the k over its denominator, left
padded with zeros to k digits. -/
def jsNumberToString (q : ℚ) : String :=
  if q.num = 0 then "0"
  else
    match findTerminatingLen q with
    | some k => "0." ++ padLeftZeros (Nat.repr (q.num.toNat * 10 ^ k / q.den)) k
    | none => ""

/-- Share-code generation (App.tsx 168):
Math.random().toString().substring(2, 8), over the decimal string of the
random outcome. -/
def generateShareCode (r : ℚ) : String :=
  jsSubstring (jsNumberToString r) 2 8

/-- A well-formed metadata value as JSON.parse returns it for the wire
message of a 10-byte file named f. -/
def exampleMetadata : Json := .obj [("name", .str "f"), ("size", .num 10)]

/-- A receiver in the Receiving situation: metadata recorded, one 3-byte
chunk buffered, 3 bytes counted. -/
def receivingState : ReceiverState := ⟨[[1, 2, 3]], 3, some exampleMetadata⟩

/-- A record snapshot carrying one answer candidate c1. -/
def snapA : RecordSnapshot := ⟨none, none, [], ["c1"]⟩

/-- A later, overlapping record snapshot of the grown candidate set:
c1 again plus the new c2. -/
def snapB : RecordSnapshot := ⟨none, none, [], ["c1", "c2"]⟩

/-- One initiator snapshot step appends the full answerCandidates list of
the snapshot to the sequence of addIceCandidate invocations, whatever the
description branch did. -/
theorem initiator_step_candidates (pc : PCState) (s : RecordSnapshot) :
    (initiatorOnSnapshot pc s).appliedCandidates =
      pc.appliedCandidates ++ s.answerCandidates := by
  unfold initiatorOnSnapshot
  by_cases h : pc.remoteDescription.isNone && s.answer.isSome <;> simp [h]

/-- One responder snapshot step appends the full offerCandidates list of
the snapshot to the sequence of addIceCandidate invocations. -/
theorem responder_step_candidates (pc : PCState) (s : RecordSnapshot) :
    (responderOnSnapshot pc s).appliedCandidates =
      pc.appliedCandidates ++ s.offerCandidates := by
  unfold responderOnSnapshot
  by_cases h : s.offer.isSome && pc.remoteDescription.isNone <;> simp [h]

/-- C1, counterexample. After the responder submits share code 482913 and
then cancels, handleCancel issues deleteDoc on the record of that key (and
resets local state): the claim that responder-side cancellation performs no
delete on the record is false at this input. -/
theorem C1_counterexample :
    (handleCancel (handleReceiveSubmit initialAppState "482913").shareCode).1 =
      some "482913" ∧
    (handleCancel (handleReceiveSubmit initialAppState "482913").shareCode).1 ≠
      none := by
  constructor <;> decide

/-- C1, amended: responder-side cancellation with a non-empty share code
closes the transport and resets local state AND deletes the rendezvous
record for that key — handleCancel is role-independent and deletes
whenever the shareCode of the current render is non-empty. -/
theorem C1_responder_cancel_deletes (s : AppState) (code : String) (h : code ≠ "") :
    (handleCancel (handleReceiveSubmit s code).shareCode).1 = some code ∧
    (handleCancel (handleReceiveSubmit s code).shareCode).2 = resetState := by
  simp [handleCancel, handleReceiveSubmit, h]

/-- C1, witness for the amended theorem at the concrete code 482913. -/
theorem C1_witness :
    (handleCancel (handleReceiveSubmit initialAppState "482913").shareCode).1 =
      some "482913" ∧
    (handleCancel (handleReceiveSubmit initialAppState "482913").shareCode).2 =
      resetState :=
  C1_responder_cancel_deletes initialAppState "482913" (by decide)

/-- C2, counterexample. A reachable Receiving state (metadata recorded, one
3-byte chunk buffered) processes a duplicate metadata message: the chunk
buffer is cleared and the byte counter reset to 0, so the claim that the
buffer and counter are left unchanged is false at this input. -/
theorem C2_counterexample :
    handleReceiveMessage initialReceiverState (.text (some exampleMetadata)) =
      .ok ⟨[], 0, some exampleMetadata⟩ none ∧
    handleReceiveMessage ⟨[], 0, some exampleMetadata⟩ (.binary [1, 2, 3]) =
      .ok receivingState none ∧
    handleReceiveMessage receivingState (.text (some exampleMetadata)) =
      .ok ⟨[], 0, some exampleMetadata⟩ none ∧
    receivingState.receivedChunks ≠ [] ∧ receivingState.receivedFileSize ≠ 0 := by
  refine ⟨rfl, ?_, rfl, by decide, by decide⟩
  rfl

/-- C2, amended: processing a further metadata (text) message while
metadata is already recorded re-records the parsed value and RESETS the
chunk buffer and the received-byte counter — duplicate metadata loses all
buffered chunks. -/
theorem C2_duplicate_metadata_resets (chunks : List (List Nat)) (n : Nat) (m j : Json) :
    handleReceiveMessage ⟨chunks, n, some m⟩ (.text (some j)) =
      .ok ⟨[], 0, some j⟩ none := rfl

/-- C3, counterexample. A binary chunk arriving while no metadata is
recorded is pushed onto the buffer and counted, and the handler then
throws a TypeError dereferencing the absent metadata: the claim of a safe
no-op drop is false at this input. -/
theorem C3_counterexample :
    handleReceiveMessage initialReceiverState (.binary [7]) =
      .typeError ⟨[[7]], 1, none⟩ ∧
    ([[7]] : List (List Nat)) ≠ [] := ⟨rfl, by decide⟩

/-- C3, amended: a binary chunk received while fileMetadata is null is
appended to the buffer, its length added to the counter, and the progress
line then dereferences the absent metadata and throws a TypeError — the
chunk is neither dropped nor handled silently. -/
theorem C3_chunk_before_metadata (chunks : List (List Nat)) (n : Nat) (bytes : List Nat) :
    handleReceiveMessage ⟨chunks, n, none⟩ (.binary bytes) =
      .typeError ⟨chunks ++ [bytes], n + bytes.length, none⟩ := rfl

/-- C5, counterexample. Two overlapping snapshots of the growing candidate
set deliver candidate c1 twice; the initiator handler passes c1 to
addIceCandidate twice, so the claim that each candidate is applied at most
once across all snapshot deliveries is false at this input. -/
theorem C5_counterexample :
    ([snapA, snapB].foldl initiatorOnSnapshot initialPCState).appliedCandidates =
      ["c1", "c1", "c2"] ∧
    (["c1", "c1", "c2"].count "c1") = 2 := by
  constructor <;> decide

/-- C5, amended: both snapshot handlers re-apply the entire candidate array
of every delivered snapshot, with no applied-set tracking: across a list of
snapshots the sequence of addIceCandidate invocations is exactly the
concatenation of the candidate lists of all snapshots, so a candidate
present in k snapshots is handed to the transport k times; at-most-once
application would hold only if the transport itself deduplicates. -/
theorem C5_candidates_reapplied_each_snapshot (pc : PCState) (snaps : List RecordSnapshot) :
    (snaps.foldl initiatorOnSnapshot pc).appliedCandidates =
      pc.appliedCandidates ++ (snaps.map (fun s => s.answerCandidates)).flatten ∧
    (snaps.foldl responderOnSnapshot pc).appliedCandidates =
      pc.appliedCandidates ++ (snaps.map (fun s => s.offerCandidates)).flatten := by
  induction snaps generalizing pc with
  | nil => simp
  | cons s rest ih =>
    simp only [List.foldl_cons, List.map_cons, List.flatten_cons]
    constructor
    · rw [(ih (initiatorOnSnapshot pc s)).1, initiator_step_candidates, List.append_assoc]
    · rw [(ih (responderOnSnapshot pc s)).2, responder_step_candidates, List.append_assoc]

/-- C7, code bug. With the app started from the idle state, handleFileChange
generates and stores share code 482913, but the completion timer of
sendFileInChunks closed over the shareCode binding of the render that
installed it, which is the empty string; the truthiness guard therefore
skips deleteDoc and the rendezvous record is never deleted on successful
completion, contradicting the cleanup the code itself announces. -/
theorem C7_completion_never_deletes :
    (handleFileChange initialAppState "482913").2.shareCode = "482913" ∧
    sendCompletionDeleteKey (handleFileChange initialAppState "482913").1 = none := by
  constructor <;> decide

/-- C9, counterexample. The text message 42 is valid JSON but not the
expected metadata structure; the handler nevertheless records it as
metadata and resets the buffer and counter, so the claim that such a
message is ignored is false at this input. -/
theorem C9_counterexample :
    handleReceiveMessage ⟨[[1]], 1, none⟩ (.text (some (.num 42))) =
      .ok ⟨[], 0, some (.num 42)⟩ none ∧
    ([] : List (List Nat)) ≠ [[1]] := ⟨rfl, by decide⟩

/-- C9, amended: only a text message whose content fails to parse as JSON
is ignored (the parse exception is caught and nothing changes, no fatal
error); a text message that parses as ANY JSON value — whatever its
structure, with or without name and size fields — is recorded as the
metadata and resets the buffer and the counter. -/
theorem C9_parse_tolerance (st : ReceiverState) :
    handleReceiveMessage st (.text none) = .ok st none ∧
    ∀ j : Json, handleReceiveMessage st (.text (some j)) = .ok ⟨[], 0, some j⟩ none :=
  ⟨rfl, fun _ => rfl⟩

/-- C10: the outcome one half of the random source prints as 0.5, whose
substring(2, 8) is the single character 5 — a share code shorter than 6
digits — and handleFileChange issues no getRecord existence check for any
code before the setRecord that creates the rendezvous record. -/
theorem C10_short_code_and_no_uniqueness_check :
    generateShareCode (mkRat 1 2) = "5" ∧
    (generateShareCode (mkRat 1 2)).length < 6 ∧
    ∀ code : String,
      StoreOp.getRecord code ∉ handleFileChangeStoreOps code ∧
      StoreOp.setRecord code ∈ handleFileChangeStoreOps code := by
  refine ⟨by decide, by decide, fun code => ⟨?_, ?_⟩⟩
  · simp [handleFileChangeStoreOps]
  · simp [handleFileChangeStoreOps]

/-- One initiator snapshot step preserves the quantity applyCount plus one
when no remote description is set yet: an application and the guard flag
flip together, so the sum is invariant. -/
theorem initiator_step_applyCount (pc : PCState) (s : RecordSnapshot) :
    (initiatorOnSnapshot pc s).applyCount +
      (if (initiatorOnSnapshot pc s).remoteDescription.isSome then 0 else 1) =
    pc.applyCount + (if pc.remoteDescription.isSome then 0 else 1) := by
  cases hr : pc.remoteDescription <;> cases ha : s.answer <;>
    simp [initiatorOnSnapshot, hr, ha]

/-- One responder snapshot step preserves the same quantity, and likewise
for the count of record updates writing the answer. -/
theorem responder_step_applyCount (pc : PCState) (s : RecordSnapshot) :
    ((responderOnSnapshot pc s).applyCount +
       (if (responderOnSnapshot pc s).remoteDescription.isSome then 0 else 1) =
     pc.applyCount + (if pc.remoteDescription.isSome then 0 else 1)) ∧
    ((responderOnSnapshot pc s).answerUpdates +
       (if (responderOnSnapshot pc s).remoteDescription.isSome then 0 else 1) =
     pc.answerUpdates + (if pc.remoteDescription.isSome then 0 else 1)) := by
  cases hr : pc.remoteDescription <;> cases ha : s.offer <;>
    simp [responderOnSnapshot, hr, ha]

/-- Processing any snapshot list preserves the initiator invariant. -/
theorem foldl_initiator_applyCount (snaps : List RecordSnapshot) :
    ∀ pc : PCState,
      (snaps.foldl initiatorOnSnapshot pc).applyCount +
        (if (snaps.foldl initiatorOnSnapshot pc).remoteDescription.isSome then 0 else 1) =
      pc.applyCount + (if pc.remoteDescription.isSome then 0 else 1) := by
  induction snaps with
  | nil => intro pc; rfl
  | cons s rest ih =>
    intro pc
    rw [List.foldl_cons, ih (initiatorOnSnapshot pc s), initiator_step_applyCount]

/-- Processing any snapshot list preserves both responder invariants. -/
theorem foldl_responder_applyCount (snaps : List RecordSnapshot) :
    ∀ pc : PCState,
      ((snaps.foldl responderOnSnapshot pc).applyCount +
         (if (snaps.foldl responderOnSnapshot pc).remoteDescription.isSome then 0 else 1) =
       pc.applyCount + (if pc.remoteDescription.isSome then 0 else 1)) ∧
      ((snaps.foldl responderOnSnapshot pc).answerUpdates +
         (if (snaps.foldl responderOnSnapshot pc).remoteDescription.isSome then 0 else 1) =
       pc.answerUpdates + (if pc.remoteDescription.isSome then 0 else 1)) := by
  induction snaps with
  | nil => intro pc; exact ⟨rfl, rfl⟩
  | cons s rest ih =>
    intro pc
    have hstep := responder_step_applyCount pc s
    have hrest := ih (responderOnSnapshot pc s)
    exact ⟨by rw [List.foldl_cons, hrest.1, hstep.1], by rw [List.foldl_cons, hrest.2, hstep.2]⟩

/-- Once a remote description is set, an initiator snapshot step leaves the
description and the application count untouched. -/
theorem initiator_step_after_set (pc : PCState) (s : RecordSnapshot)
    (h : pc.remoteDescription.isSome) :
    (initiatorOnSnapshot pc s).remoteDescription = pc.remoteDescription ∧
    (initiatorOnSnapshot pc s).applyCount = pc.applyCount := by
  obtain ⟨d, hd⟩ := Option.isSome_iff_exists.mp h
  simp [initiatorOnSnapshot, hd]

/-- Once a remote description is set, a responder snapshot step leaves the
description and the application count untouched. -/
theorem responder_step_after_set (pc : PCState) (s : RecordSnapshot)
    (h : pc.remoteDescription.isSome) :
    (responderOnSnapshot pc s).remoteDescription = pc.remoteDescription ∧
    (responderOnSnapshot pc s).applyCount = pc.applyCount := by
  obtain ⟨d, hd⟩ := Option.isSome_iff_exists.mp h
  simp [responderOnSnapshot, hd]

/-- Once a remote description is set, processing any further snapshot list
changes neither the description nor the application count, on either role. -/
theorem foldl_after_set (snaps : List RecordSnapshot) :
    ∀ pc : PCState, pc.remoteDescription.isSome →
      ((snaps.foldl initiatorOnSnapshot pc).remoteDescription = pc.remoteDescription ∧
       (snaps.foldl initiatorOnSnapshot pc).applyCount = pc.applyCount) ∧
      ((snaps.foldl responderOnSnapshot pc).remoteDescription = pc.remoteDescription ∧
       (snaps.foldl responderOnSnapshot pc).applyCount = pc.applyCount) := by
  induction snaps with
  | nil => intro pc _; exact ⟨⟨rfl, rfl⟩, ⟨rfl, rfl⟩⟩
  | cons s rest ih =>
    intro pc h
    have hi := initiator_step_after_set pc s h
    have hr := responder_step_after_set pc s h
    have hi2 := (ih (initiatorOnSnapshot pc s) (by rw [hi.1]; exact h)).1
    have hr2 := (ih (responderOnSnapshot pc s) (by rw [hr.1]; exact h)).2
    refine ⟨⟨?_, ?_⟩, ⟨?_, ?_⟩⟩
    · rw [List.foldl_cons, hi2.1, hi.1]
    · rw [List.foldl_cons, hi2.2, hi.2]
    · rw [List.foldl_cons, hr2.1, hr.1]
    · rw [List.foldl_cons, hr2.2, hr.2]

/-- C8: for every sequence of record snapshots delivered from a fresh peer
connection, the initiator applies the answer as remote description at most
once, the responder applies the offer at most once and writes the answer to
the record at most once; and from any state where a remote description is
already set, further snapshots neither change it nor apply again (a no-op,
not an error). -/
theorem C8_remote_description_apply_once (snaps : List RecordSnapshot) :
    (snaps.foldl initiatorOnSnapshot initialPCState).applyCount ≤ 1 ∧
    (snaps.foldl responderOnSnapshot initialPCState).applyCount ≤ 1 ∧
    (snaps.foldl responderOnSnapshot initialPCState).answerUpdates ≤ 1 ∧
    ∀ pc : PCState, pc.remoteDescription.isSome →
      (snaps.foldl initiatorOnSnapshot pc).remoteDescription = pc.remoteDescription ∧
      (snaps.foldl initiatorOnSnapshot pc).applyCount = pc.applyCount ∧
      (snaps.foldl responderOnSnapshot pc).remoteDescription = pc.remoteDescription ∧
      (snaps.foldl responderOnSnapshot pc).applyCount = pc.applyCount := by
  refine ⟨?_, ?_, ?_, ?_⟩
  · have h : (snaps.foldl initiatorOnSnapshot initialPCState).applyCount +
        (if (snaps.foldl initiatorOnSnapshot initialPCState).remoteDescription.isSome
         then 0 else 1) = 1 := by
      rw [foldl_initiator_applyCount snaps initialPCState]; rfl
    split at h <;> omega
  · have h : (snaps.foldl responderOnSnapshot initialPCState).applyCount +
        (if (snaps.foldl responderOnSnapshot initialPCState).remoteDescription.isSome
         then 0 else 1) = 1 := by
      rw [(foldl_responder_applyCount snaps initialPCState).1]; rfl
    split at h <;> omega
  · have h : (snaps.foldl responderOnSnapshot initialPCState).answerUpdates +
        (if (snaps.foldl responderOnSnapshot initialPCState).remoteDescription.isSome
         then 0 else 1) = 1 := by
      rw [(foldl_responder_applyCount snaps initialPCState).2]; rfl
    split at h <;> omega
  · intro pc h
    have := foldl_after_set snaps pc h
    exact ⟨this.1.1, this.1.2, this.2.1, this.2.2⟩

/-- C8, witness: one snapshot carrying an answer from a fresh connection
applies at most once, and from a connection whose remote description is
already the value d, processing that snapshot changes nothing. -/
theorem C8_witness :
    (([snapA].foldl initiatorOnSnapshot initialPCState).applyCount ≤ 1) ∧
    (([snapA].foldl initiatorOnSnapshot ⟨some "d", none, 1, [], 0⟩).remoteDescription =
      some "d") :=
  ⟨(C8_remote_description_apply_once [snapA]).1,
   ((C8_remote_description_apply_once [snapA]).2.2.2 ⟨some "d", none, 1, [], 0⟩ rfl).1⟩

/-- C4, counterexample. At receivedBytes = 0 and totalBytes = 0 the
computation divides by zero: the result is NaN, not the integer 0 the
claim requires, so the division-by-zero guard the claim describes does
not exist. -/
theorem C4_counterexample :
    progress 0 0 = JsNum.nan ∧ JsNum.nan ≠ JsNum.fin 0 := by
  constructor <;> decide

/-- C4, amended: for nonnegative inputs, when totalBytes is positive the
result is a finite nonnegative integer, and it is at most 100 whenever
receivedBytes is at most totalBytes; when totalBytes is 0 there is no
guard: the result is NaN for receivedBytes = 0 and positive infinity
otherwise. -/
theorem C4_progress_behavior (received total : ℚ) (hr : 0 ≤ received) :
    (0 < total →
      ∃ n : ℤ, progress received total = .fin (n : ℚ) ∧ 0 ≤ n ∧
        (received ≤ total → n ≤ 100)) ∧
    (total = 0 →
      progress received total = if received = 0 then JsNum.nan else JsNum.posInf) := by
  constructor
  · intro ht
    refine ⟨⌊received / total * 100 + 1 / 2⌋, ?_, ?_, ?_⟩
    · simp only [progress, jsDiv, jsMul, jsRound]
      rw [if_neg ht.ne']
    · have hx : (0 : ℚ) ≤ received / total * 100 := by positivity
      exact Int.le_floor.mpr (by push_cast; linarith)
    · intro hle
      have hx : received / total ≤ 1 := (div_le_one ht).mpr hle
      have hlt : received / total * 100 + 1 / 2 < ((101 : ℤ) : ℚ) := by
        push_cast; nlinarith
      have := Int.floor_lt.mpr hlt
      omega
  · intro ht
    subst ht
    by_cases h0 : received = 0
    · subst h0
      simp [progress, jsDiv, jsMul, jsRound]
    · have hpos : 0 < received := lt_of_le_of_ne hr (Ne.symm h0)
      simp only [progress, jsDiv, jsMul, jsRound, if_pos rfl, if_neg h0, if_pos hpos]
      norm_num

/-- C4, witness for the amended theorem: 50 of 200 bytes gives a finite
nonnegative integer percentage at most 100. -/
theorem C4_witness :
    ∃ n : ℤ, progress 50 200 = .fin (n : ℚ) ∧ 0 ≤ n ∧
      ((50 : ℚ) ≤ 200 → n ≤ 100) :=
  (C4_progress_behavior 50 200 (by norm_num)).1 (by norm_num)

/-- Invariant of the chunking loop: started at an offset inside the file
with enough fuel, it emits chunks that concatenate to the remainder of the
file, number exactly the ceiling of the remaining bytes over the chunk
size, and each have at most chunk-size bytes. -/
theorem chunkFileGo_spec (file : List Nat) (C : Nat) (hC : 0 < C) :
    ∀ fuel o, o < file.length → file.length - o ≤ fuel * C →
      (chunkFileGo file C fuel o).flatten = file.drop o ∧
      (chunkFileGo file C fuel o).length = (file.length - o + C - 1) / C ∧
      ∀ c ∈ chunkFileGo file C fuel o, c.length ≤ C := by
  intro fuel
  induction fuel with
  | zero =>
    intro o h1 h2
    rw [Nat.zero_mul] at h2
    omega
  | succ fuel ih =>
    intro o h1 h2
    have hslice : ((file.drop o).take C).length = min C (file.length - o) := by
      simp [List.length_take, List.length_drop]
    rw [Nat.succ_mul] at h2
    by_cases hlt : o + ((file.drop o).take C).length < file.length
    · have hlen : ((file.drop o).take C).length = C := by
        rw [hslice] at hlt ⊢
        omega
      have hoC : o + C < file.length := by rw [hlen] at hlt; exact hlt
      have hrec := ih (o + C) hoC (by omega)
      simp only [chunkFileGo]
      rw [if_pos hlt]
      refine ⟨?_, ?_, ?_⟩
      · simp only [List.flatten_cons]
        rw [hlen, hrec.1, List.drop_take_append_drop]
      · simp only [List.length_cons]
        rw [hlen, hrec.2.1]
        have hm : file.length - o + C - 1 = (file.length - (o + C) + C - 1) + C := by
          omega
        rw [hm, Nat.add_div_right _ hC]
      · rw [hlen]
        intro c hc
        rcases List.mem_cons.mp hc with h | h
        · rw [h, hslice]
          omega
        · exact hrec.2.2 c h
    · have hrem : file.length - o ≤ C := by
        rw [hslice] at hlt
        omega
      simp only [chunkFileGo]
      rw [if_neg hlt]
      refine ⟨?_, ?_, ?_⟩
      · simp only [List.flatten_cons, List.flatten_nil, List.append_nil]
        exact List.take_of_length_le (by rw [List.length_drop]; exact hrem)
      · simp only [List.length_cons, List.length_nil]
        refine (Nat.div_eq_of_lt_le ?_ ?_).symm <;> omega
      · intro c hc
        rw [List.mem_singleton.mp hc, hslice]
        omega

/-- C6, counterexample. An empty file at chunk size 1: the loop still reads
and sends its first (empty) slice, producing one chunk where the claim
requires ceil(0 / 1) = 0 chunks, so the claim that 0 chunks are produced
exactly when the file is empty is false at this input. -/
theorem C6_counterexample :
    chunkFile ([] : List Nat) 1 = [[]] ∧
    (chunkFile ([] : List Nat) 1).length ≠ 0 := by
  constructor <;> decide

/-- C6, amended: for every file and chunk size C greater than 0, the chunks
are contiguous, in order and non-overlapping — their concatenation in
emission (and hence receipt) order byte-equals the file — each chunk has at
most C bytes, and the number of chunks is ceil(S / C) for a non-empty file
but 1 (one empty chunk, never 0 chunks) for an empty file. -/
theorem C6_chunking_round_trip (file : List Nat) (C : Nat) (hC : 0 < C) :
    (chunkFile file C).flatten = file ∧
    (chunkFile file C).length =
      (if file.length = 0 then 1 else (file.length + C - 1) / C) ∧
    (∀ c ∈ chunkFile file C, c.length ≤ C) ∧
    chunkFile file C ≠ [] := by
  by_cases h0 : file.length = 0
  · rw [List.length_eq_zero.mp h0]
    refine ⟨?_, ?_, ?_, ?_⟩
    · simp [chunkFile, chunkFileGo]
    · simp [chunkFile, chunkFileGo]
    · intro c hc
      have hc0 : c = [] := by simpa [chunkFile, chunkFileGo] using hc
      simp [hc0]
    · simp [chunkFile, chunkFileGo]
  · have h1 : 0 < file.length := Nat.pos_of_ne_zero h0
    have hfuel : file.length - 0 ≤ (file.length + 1) * C := by
      calc file.length - 0 ≤ file.length + 1 := by omega
        _ = (file.length + 1) * 1 := by rw [Nat.mul_one]
        _ ≤ (file.length + 1) * C := Nat.mul_le_mul_left _ hC
    have hspec := chunkFileGo_spec file C hC (file.length + 1) 0 h1 hfuel
    rw [List.drop_zero] at hspec
    refine ⟨hspec.1, ?_, hspec.2.2, ?_⟩
    · rw [if_neg h0]
      have : file.length - 0 = file.length := by omega
      rw [← this]
      exact hspec.2.1
    · refine List.ne_nil_of_length_pos ?_
      show 0 < (chunkFileGo file C (file.length + 1) 0).length
      rw [hspec.2.1]
      have hone : 1 ≤ (file.length - 0 + C - 1) / C :=
        (Nat.one_le_div_iff hC).mpr (by omega)
      omega

/-- C6, witness for the amended theorem: a 3-byte file at chunk size 2
splits into 2 chunks that concatenate back to the file. -/
theorem C6_witness :
    (chunkFile [1, 2, 3] 2).flatten = [1, 2, 3] ∧
    (chunkFile [1, 2, 3] 2).length =
      (if ([1, 2, 3] : List Nat).length = 0 then 1 else (([1, 2, 3] : List Nat).length + 2 - 1) / 2) ∧
    (∀ c ∈ chunkFile [1, 2, 3] 2, c.length ≤ 2) ∧
    chunkFile [1, 2, 3] 2 ≠ [] :=
  C6_chunking_round_trip [1, 2, 3] 2 (by decide)
